import Mathlib

/-!
Verification development for the radial audio spectrum visualizer
(`src/main.js`).  The source file contains two parts:

* the JavaScript host code: canvas resize handling (`resizeCanvas`,
  lines 38-47), audio analyzer setup, spectrum texture creation
  (`createSpectrumTexture`, lines 79-105, CLAMP_TO_EDGE + LINEAR filtering),
  one-time uniform upload in `init` (lines 158-177), and the per-frame
  `render` loop (lines 183-210);
* the GLSL fragment shader appended at lines 211-285: `exp01`,
  `sampleSpectrum`, `rangeRings` and `main`.

The shader arithmetic that is exact rational (texture addressing, the
1-2-1 kernel, the noise gate, smoothstep, fract) is embedded
polymorphically over a linear ordered field with a floor so that the same
definitions serve both `ℚ` (for decidable evaluation) and `ℝ` (for the
full shader, which needs `exp`, `atan`, `sqrt` and `rpow`).  The JS frame
loop is embedded as a state machine over an explicit `AppState`, with
`render` additionally emitting the ordered list of frame events so that
ordering claims (update-before-draw) can be stated.
-/

section GLSLPrimitives

variable {α : Type} [LinearOrderedField α] [FloorRing α]

/-- GLSL `clamp(x, lo, hi) = min(max(x, lo), hi)`. -/
def glslClamp (x lo hi : α) : α := min (max x lo) hi

/-- GLSL `fract(x) = x - floor(x)`. -/
def glslFract (x : α) : α := x - ⌊x⌋

/-- GLSL `smoothstep(e0, e1, x)`: Hermite interpolation of the clamped
ramp `(x - e0)/(e1 - e0)`. -/
def glslSmoothstep (e0 e1 x : α) : α :=
  let t := glslClamp ((x - e0) / (e1 - e0)) 0 1
  t * t * (3 - 2 * t)

/-- GLSL `mix(a, b, t) = a * (1 - t) + b * t`. -/
def glslMix (a b t : α) : α := a * (1 - t) + b * t

/-- One texel of the 1×N spectrum texture, read with CLAMP_TO_EDGE
addressing (`createSpectrumTexture`, lines 86-87): an out-of-range index
re-reads the nearest edge texel. -/
def texelFetch (s : List α) (i : ℤ) : α :=
  s.getD (min (max i 0) ((s.length : ℤ) - 1)).toNat 0

/-- Model of `texture(uSpectrum, vec2(u, 0.5)).r` on the 1×N R8 texture with LINEAR
filtering (lines 88-89): sample position `p = u·N - 1/2`, blend the two
texels surrounding `p` by the fractional part of `p`.  The texture height
is 1, so the vertical coordinate contributes nothing. -/
def sampleLinear (s : List α) (u : α) : α :=
  let p := u * (s.length : α) - 1 / 2
  let i := ⌊p⌋
  let f := p - (i : α)
  (1 - f) * texelFetch s i + f * texelFetch s (i + 1)

/-- The pre-gate body of `sampleSpectrum` (lines 230-240) at an
already-clamped bin coordinate: the three texel-center reads
`uC = (bin + 0.5)/uBins`, `uL = (bin - 1 + 0.5)/uBins`,
`uR = (bin + 1 + 0.5)/uBins` combined with the 1-2-1 kernel
`(l + 2c + r) * 0.25`. -/
def smoothValue (s : List α) (uBins bin : α) : α :=
  let uC := (bin + 0.5) / uBins
  let uL := (bin - 1 + 0.5) / uBins
  let uR := (bin + 1 + 0.5) / uBins
  (sampleLinear s uL + 2 * sampleLinear s uC + sampleLinear s uR) * 0.25

/-- The noise gate of line 241: `max(x - 0.01, 0)`. -/
def noiseGate (x : α) : α := max (x - 0.01) 0

/-- Shader function `sampleSpectrum` (lines 227-243): clamp the bin coordinate to
`[1, uBins - 1]` (line 228, avoiding DC bias at bin 0), apply the 1-2-1
smoothing kernel at texel centers, then the noise gate. -/
def sampleSpectrum (s : List α) (uBins bin : α) : α :=
  noiseGate (smoothValue s uBins (glslClamp bin 1 (uBins - 1)))

/-- The un-faded ring line of `rangeRings` (lines 249-252):
`t = fract(radius * count)`, `smoothstep(0.02, 0.0, min(t, 1 - t))`. -/
def ringLine (radius count : α) : α :=
  let t := glslFract (radius * count)
  glslSmoothstep 0.02 0 (min t (1 - t))

/-- Shader function `rangeRings` (lines 245-256): the ring line faded out as the radius
approaches 1 via `smoothstep(1.0, 0.0, radius)`. -/
def rangeRings (radius count : α) : α :=
  ringLine radius count * glslSmoothstep 1 0 radius

end GLSLPrimitives

/-- Shader function `exp01` (lines 223-225): exponential remap of `[0,1]`,
`(exp(f01 * k) - 1) / (exp(k) - 1)`. -/
noncomputable def exp01 (f01 k : ℝ) : ℝ :=
  (Real.exp (f01 * k) - 1) / (Real.exp k - 1)

/-- GLSL two-argument `atan(y, x)`: arctangent of `y/x` adjusted into the
quadrant of `(x, y)`, range `[-π, π]`. -/
noncomputable def glslAtan (y x : ℝ) : ℝ :=
  if 0 < x then Real.arctan (y / x)
  else if x < 0 then
    (if 0 ≤ y then Real.arctan (y / x) + Real.pi
     else Real.arctan (y / x) - Real.pi)
  else
    (if 0 < y then Real.pi / 2
     else if y < 0 then -(Real.pi / 2)
     else 0)

/-- Lines 260-261 of `main`: recenter the UV to `[-1,1]²` and scale the
horizontal axis by `uAspect.x / max(1.0, uAspect.y)`. -/
noncomputable def polarUV (uAspect vUV : ℝ × ℝ) : ℝ × ℝ :=
  ((vUV.1 * 2 - 1) * (uAspect.1 / max 1 uAspect.2), vUV.2 * 2 - 1)

/-- Line 264: `radius = length(polarUV)`. -/
noncomputable def glRadius (uAspect vUV : ℝ × ℝ) : ℝ :=
  Real.sqrt ((polarUV uAspect vUV).1 ^ 2 + (polarUV uAspect vUV).2 ^ 2)

/-- Lines 268-270 of `main`: angle from `atan(y, x) - π/2`, wrapped into
`[0, 2π)` and normalized to `[0, 1)`. -/
noncomputable def angle01Of (uAspect vUV : ℝ × ℝ) : ℝ :=
  let p := polarUV uAspect vUV
  let angle0 := glslAtan p.2 p.1 - Real.pi * 0.5
  let angle := if angle0 < 0 then angle0 + 2 * Real.pi else angle0
  angle * 0.5 / Real.pi

/-- Lines 271-273: `bin = exp01(angle01, 3.0) * (uBins - 1.0)`. -/
noncomputable def binCoord (uBins angle01 : ℝ) : ℝ :=
  exp01 angle01 3 * (uBins - 1)

/-- Lines 277-278: the frequency tilt,
`mix(0.7, 2.0, pow((bin + 1.0)/uBins, 0.5))`.  Note that `main` feeds it
the raw bin coordinate of line 273, not the value clamped inside
`sampleSpectrum`. -/
noncomputable def tiltMix (uBins bin : ℝ) : ℝ :=
  glslMix 0.7 2.0 (((bin + 1) / uBins) ^ ((0.5 : ℝ)))

/-- Line 281: the perceptual gain `pow(amp, 1.5)`. -/
noncomputable def gainOf (amp : ℝ) : ℝ := amp ^ ((1.5 : ℝ))

/-- Line 283: `vec3(0.25, 1.0, 0.55) * gain`. -/
noncomputable def glowColor (gain : ℝ) : ℝ × ℝ × ℝ :=
  (0.25 * gain, 1.0 * gain, 0.55 * gain)

/-- An RGBA fragment color. -/
structure Vec4 where
  r : ℝ
  g : ℝ
  b : ℝ
  a : ℝ

/-- The fragment shader `main` (lines 258-285).  `none` models `discard`.
The final color is `vec4(base + glow, 1.0) + rangeRings(radius, 5.0)`;
the scalar ring term is added to all four components. -/
noncomputable def shadeFragment (s : List ℝ) (uBins : ℝ) (uAspect vUV : ℝ × ℝ) :
    Option Vec4 :=
  if 1 < glRadius uAspect vUV then none
  else
    let bin := binCoord uBins (angle01Of uAspect vUV)
    let amp := sampleSpectrum s uBins bin * tiltMix uBins bin
    let gain := gainOf amp
    let ring := rangeRings (glRadius uAspect vUV) 5
    some ⟨0.05 + (glowColor gain).1 + ring, 0.08 + (glowColor gain).2.1 + ring,
          0.06 + (glowColor gain).2.2 + ring, 1 + ring⟩

/-- The mutable host-side state of `main.js`: the canvas CSS size and
device pixel scale (`dpr` stands for the browser's devicePixelRatio), the
canvas backing-store size, the GL viewport, the three uniforms uploaded by
`init` (`uAspect`, `uBins`), the analyzer bin count, the CPU-side spectrum
snapshot (`Uint8Array`) and the GPU texture contents. -/
structure AppState where
  clientWidth : ℕ
  clientHeight : ℕ
  dpr : ℚ
  canvasWidth : ℕ
  canvasHeight : ℕ
  viewportWidth : ℕ
  viewportHeight : ℕ
  uAspect : ℚ × ℚ
  uBinsUniform : ℚ
  bins : ℕ
  spectrum : List ℕ
  texture : List ℕ
  deriving DecidableEq

/-- JS `resizeCanvas` (lines 38-47): clamp the device pixel scale to 2
(`window.devicePixelRatio || 1` treats 0 as 1), floor the scaled CSS size,
and update the canvas backing store and viewport only when the size
changed.  The `uAspect` uniform is not touched. -/
def resizeCanvas (st : AppState) : AppState :=
  let dpr := min (if st.dpr = 0 then 1 else st.dpr) 2
  let width := (⌊(st.clientWidth : ℚ) * dpr⌋).toNat
  let height := (⌊(st.clientHeight : ℚ) * dpr⌋).toNat
  if st.canvasWidth ≠ width ∨ st.canvasHeight ≠ height then
    { st with canvasWidth := width, canvasHeight := height,
              viewportWidth := width, viewportHeight := height }
  else st

/-- The uniform upload in the `init` click handler (lines 167-169):
`uniform1f(uBins, bins)` and `uniform2f(uAspect, canvas.width,
canvas.height)`.  This is the only place `uAspect` is written. -/
def initUniforms (st : AppState) : AppState :=
  { st with uAspect := ((st.canvasWidth : ℚ), (st.canvasHeight : ℚ)),
            uBinsUniform := (st.bins : ℚ) }

/-- One observable step of a `render` frame, in issue order.  The `draw`
event records the GPU-visible inputs at the moment `drawArrays` is
issued: the texture contents, the `uAspect` and `uBins` uniforms, and the
viewport. -/
inductive FrameEvent where
  | resize : FrameEvent
  | refresh (snapshot : List ℕ) : FrameEvent
  | updateTexture (texture : List ℕ) : FrameEvent
  | draw (texture : List ℕ) (uAspect : ℚ × ℚ) (uBins : ℚ)
      (viewport : ℕ × ℕ) : FrameEvent
  deriving DecidableEq

/-- Whether a frame event is the `drawArrays` call. -/
def FrameEvent.isDraw : FrameEvent → Bool
  | .draw _ _ _ _ => true
  | _ => false

/-- The frame loop body `render` (lines 183-210), straight-line:
(1) `resizeCanvas()`; (2) `analyzer.getByteFrequencyData(spectrum)`
overwrites the snapshot with the current analyzer estimate `audio`;
(3) `texSubImage2D` copies the full snapshot into the spectrum texture;
(4) `drawArrays` is issued.  Returns the post-frame state together with
the ordered event trace. -/
def render (st : AppState) (audio : List ℕ) : AppState × List FrameEvent :=
  let st1 := resizeCanvas st
  let st2 := { st1 with spectrum := audio }
  let st3 := { st2 with texture := st2.spectrum }
  (st3, [FrameEvent.resize, FrameEvent.refresh st2.spectrum,
         FrameEvent.updateTexture st3.texture,
         FrameEvent.draw st3.texture st3.uAspect st3.uBinsUniform
           (st3.viewportWidth, st3.viewportHeight)])

lemma resizeCanvas_uAspect (st : AppState) : (resizeCanvas st).uAspect = st.uAspect := by
  simp only [resizeCanvas]
  split <;> split <;> rfl

lemma resizeCanvas_uBinsUniform (st : AppState) :
    (resizeCanvas st).uBinsUniform = st.uBinsUniform := by
  simp only [resizeCanvas]
  split <;> split <;> rfl

/-- Claim C3: in every frame executed by the loop, `render` first refreshes
the snapshot, then performs the full-texture update from that snapshot, and
only then issues the draw; the event trace is exactly resize → refresh →
update → draw, the texture recorded at the draw equals the snapshot `audio`
taken that same frame (a full copy, so no stale or partial bin data is
observable by the draw), and the post-frame texture state equals `audio`. -/
theorem c3_update_completes_before_draw (st : AppState) (audio : List ℕ) :
    (render st audio).2 =
      [FrameEvent.resize, FrameEvent.refresh audio, FrameEvent.updateTexture audio,
       FrameEvent.draw audio st.uAspect st.uBinsUniform
         ((resizeCanvas st).viewportWidth, (resizeCanvas st).viewportHeight)] ∧
    (render st audio).1.texture = audio := by
  refine ⟨?_, rfl⟩
  simp [render, resizeCanvas_uAspect, resizeCanvas_uBinsUniform]

/-- A frame state whose CSS width has collapsed to 0 (degenerate surface)
while the canvas still holds the previous 800×600 backing store. -/
def degenerateClientState : AppState :=
  { clientWidth := 0, clientHeight := 600, dpr := 1, canvasWidth := 800,
    canvasHeight := 600, viewportWidth := 800, viewportHeight := 600,
    uAspect := (800, 600), uBinsUniform := 4, bins := 4,
    spectrum := [0, 0, 0, 0], texture := [0, 0, 0, 0] }

/-- Claim C2 counterexample: on a frame whose surface is degenerate (width
resized to 0), `render` does not skip the draw — the canvas becomes 0 wide
and the trace still contains exactly one draw call. -/
theorem c2_counterexample_draw_issued_at_zero_width :
    (render degenerateClientState [0, 0, 0, 0]).1.canvasWidth = 0 ∧
    ((render degenerateClientState [0, 0, 0, 0]).2.countP (fun e => e.isDraw)) = 1 := by
  refine ⟨?_, by decide⟩
  norm_num [render, resizeCanvas, degenerateClientState, Int.toNat_ofNat]

/-- Claim C2 amended: `render` never inspects the surface dimensions; it
issues exactly one draw call every frame, including frames with zero width
or height (the draw then rasterizes into an empty viewport — it neither
fails nor is skipped). -/
theorem c2_amended_draw_always_issued (st : AppState) (audio : List ℕ) :
    ((render st audio).2.countP (fun e => e.isDraw)) = 1 := by
  rfl

/-- The app state at the moment the `init` click handler uploaded the
uniforms: canvas 800×600, so `uAspect = (800, 600)`, `uBins = 4` bins. -/
def c1InitState : AppState :=
  initUniforms
    { clientWidth := 800, clientHeight := 600, dpr := 1, canvasWidth := 800,
      canvasHeight := 600, viewportWidth := 800, viewportHeight := 600,
      uAspect := (0, 0), uBinsUniform := 0, bins := 4,
      spectrum := [0, 0, 0, 0], texture := [0, 0, 0, 0] }

/-- The state `c1InitState` after the output surface is resized to 600×800 between
frames (the ResizeObserver fires `resizeCanvas` on the next frame's
`render`). -/
def c1ResizedState : AppState :=
  { c1InitState with clientWidth := 600, clientHeight := 800 }

/-- Claim C1, evaluated at the failing input: after the surface resize from
800×600 to 600×800, the next frame's `resizeCanvas` does update the canvas
and viewport to 600×800, the texture update and `uBins` (bin mapping) are
unaffected — but the `uAspect` value the shader reads at the draw is still
the init-time `(800, 600)`, not the current surface's `(600, 800)`:
neither `resizeCanvas` nor `render` ever re-uploads the uniform. -/
theorem c1_aspect_uniform_stale_after_resize :
    c1InitState.uAspect = (800, 600) ∧
    (render c1ResizedState [9, 9, 9, 9]).1.canvasWidth = 600 ∧
    (render c1ResizedState [9, 9, 9, 9]).1.canvasHeight = 800 ∧
    (render c1ResizedState [9, 9, 9, 9]).2 =
      [FrameEvent.resize, FrameEvent.refresh [9, 9, 9, 9],
       FrameEvent.updateTexture [9, 9, 9, 9],
       FrameEvent.draw [9, 9, 9, 9] (800, 600) 4 (600, 800)] ∧
    ((800 : ℚ), (600 : ℚ)) ≠ ((600 : ℚ), (800 : ℚ)) := by
  have hrs : resizeCanvas c1ResizedState = { c1ResizedState with canvasWidth := 600, canvasHeight := 800, viewportWidth := 600, viewportHeight := 800 } := by
    norm_num [resizeCanvas, c1ResizedState, c1InitState, initUniforms]
    decide
  refine ⟨by decide, ?_, ?_, ?_, by decide⟩
  all_goals simp only [render, hrs]
  all_goals decide

lemma texelFetch_getD {α : Type} [LinearOrderedField α] (s : List α) (j : ℤ)
    (h0 : 0 ≤ j) (h1 : j < (s.length : ℤ)) :
    texelFetch s j = s.getD j.toNat 0 := by
  unfold texelFetch
  congr 1
  omega

section SamplingLemmas

variable {α : Type} [LinearOrderedField α] [FloorRing α]

lemma sampleLinear_texelCenter (s : List α) (hs : s ≠ []) (j : ℤ) :
    sampleLinear s (((j : α) + 1 / 2) / (s.length : α)) = texelFetch s j := by
  have hN : ((s.length : ℕ) : α) ≠ 0 :=
    Nat.cast_ne_zero.mpr (List.length_pos.mpr hs).ne'
  have hp : ((j : α) + 1 / 2) / (s.length : α) * (s.length : α) - 1 / 2 = (j : α) := by
    field_simp
    ring
  simp only [sampleLinear, hp, Int.floor_intCast, sub_self, zero_mul, one_mul,
    sub_zero, add_zero]

lemma smoothValue_int (s : List α) (hs : s ≠ []) (j : ℤ) :
    smoothValue s (s.length : α) ((j : α)) =
      (texelFetch s (j - 1) + 2 * texelFetch s j + texelFetch s (j + 1)) * 0.25 := by
  simp only [smoothValue]
  rw [show ((j : α) + 0.5) / (s.length : α) = ((j : α) + 1 / 2) / (s.length : α) by
        norm_num,
      show ((j : α) - 1 + 0.5) / (s.length : α) =
          ((((j - 1) : ℤ) : α) + 1 / 2) / (s.length : α) by push_cast; ring,
      show ((j : α) + 1 + 0.5) / (s.length : α) =
          ((((j + 1) : ℤ) : α) + 1 / 2) / (s.length : α) by push_cast; ring,
      sampleLinear_texelCenter s hs (j - 1), sampleLinear_texelCenter s hs j,
      sampleLinear_texelCenter s hs (j + 1)]

end SamplingLemmas

/-- Claim C4 counterexample: `sampleSpectrum` does not return the raw
1-2-1-weighted average — the noise gate inside it subtracts 0.01.  With
texels `[0, 1/2, 1/2, 1/2]` (B = 4) at bin 1 the average of bins 0, 1, 2
is 3/8, but `sampleSpectrum` returns 3/8 - 1/100 = 73/200. -/
theorem c4_counterexample_gate_shifts_average :
    sampleSpectrum ([0, 1/2, 1/2, 1/2] : List ℚ) 4 1 = 73 / 200 ∧
    (texelFetch ([0, 1/2, 1/2, 1/2] : List ℚ) 0 +
        2 * texelFetch ([0, 1/2, 1/2, 1/2] : List ℚ) 1 +
        texelFetch ([0, 1/2, 1/2, 1/2] : List ℚ) 2) / 4 = 3 / 8 ∧
    (73 / 200 : ℚ) ≠ 3 / 8 := by
  have hs : ([0, 1/2, 1/2, 1/2] : List ℚ) ≠ [] := by simp
  have hf0 : texelFetch ([0, 1/2, 1/2, 1/2] : List ℚ) 0 = 0 := by
    rw [texelFetch_getD _ 0 (by omega) (by simp)]
    rfl
  have hf1 : texelFetch ([0, 1/2, 1/2, 1/2] : List ℚ) 1 = 1 / 2 := by
    rw [texelFetch_getD _ 1 (by omega) (by simp)]
    rfl
  have hf2 : texelFetch ([0, 1/2, 1/2, 1/2] : List ℚ) 2 = 1 / 2 := by
    rw [texelFetch_getD _ 2 (by omega) (by simp)]
    rfl
  have hsm := smoothValue_int ([0, 1/2, 1/2, 1/2] : List ℚ) hs 1
  norm_num at hsm
  rw [hf0, hf1, hf2] at hsm
  refine ⟨?_, by rw [hf0, hf1, hf2]; norm_num, by norm_num⟩
  unfold sampleSpectrum noiseGate
  rw [show glslClamp (1 : ℚ) 1 (4 - 1) = (1 : ℚ) by norm_num [glslClamp], hsm]
  norm_num

/-- Claim C4 amended: for every integer bin index `i` in `[1, B-2]`, the
three LINEAR texture reads of `sampleSpectrum` at the texel-center
coordinates `(i-1+0.5)/B`, `(i+0.5)/B`, `(i+1+0.5)/B` land exactly on
texels `i-1`, `i`, `i+1` (no filtering bleed), the pre-gate smoothed value
is exactly the 1-2-1-weighted average `(s[i-1] + 2·s[i] + s[i+1]) / 4`,
and `sampleSpectrum` returns that average passed through the noise gate,
`max(average - 0.01, 0)`, rather than the average itself. -/
theorem c4_amended_texel_center_average (s : List ℚ) (B : ℚ)
    (hB : B = (s.length : ℚ)) (i : ℕ) (h1 : 1 ≤ i) (h2 : i + 2 ≤ s.length) :
    sampleLinear s (((i : ℚ) - 1 + 0.5) / B) = texelFetch s ((i : ℤ) - 1) ∧
    sampleLinear s (((i : ℚ) + 0.5) / B) = texelFetch s ((i : ℤ)) ∧
    sampleLinear s (((i : ℚ) + 1 + 0.5) / B) = texelFetch s ((i : ℤ) + 1) ∧
    smoothValue s B ((i : ℚ)) =
      (texelFetch s ((i : ℤ) - 1) + 2 * texelFetch s ((i : ℤ)) +
        texelFetch s ((i : ℤ) + 1)) / 4 ∧
    sampleSpectrum s B ((i : ℚ)) =
      max ((texelFetch s ((i : ℤ) - 1) + 2 * texelFetch s ((i : ℤ)) +
        texelFetch s ((i : ℤ) + 1)) / 4 - 0.01) 0 := by
  subst hB
  have hs : s ≠ [] := by
    rintro rfl
    simp only [List.length_nil] at h2
    omega
  have hL : sampleLinear s (((i : ℚ) - 1 + 0.5) / (s.length : ℚ)) =
      texelFetch s ((i : ℤ) - 1) := by
    rw [show ((i : ℚ) - 1 + 0.5) / (s.length : ℚ) =
          ((((i : ℤ) - 1 : ℤ) : ℚ) + 1 / 2) / (s.length : ℚ) by push_cast; ring]
    exact sampleLinear_texelCenter s hs ((i : ℤ) - 1)
  have hC : sampleLinear s (((i : ℚ) + 0.5) / (s.length : ℚ)) =
      texelFetch s ((i : ℤ)) := by
    rw [show ((i : ℚ) + 0.5) / (s.length : ℚ) =
          (((i : ℤ) : ℚ) + 1 / 2) / (s.length : ℚ) by push_cast; ring]
    exact sampleLinear_texelCenter s hs ((i : ℤ))
  have hR : sampleLinear s (((i : ℚ) + 1 + 0.5) / (s.length : ℚ)) =
      texelFetch s ((i : ℤ) + 1) := by
    rw [show ((i : ℚ) + 1 + 0.5) / (s.length : ℚ) =
          ((((i : ℤ) + 1 : ℤ) : ℚ) + 1 / 2) / (s.length : ℚ) by push_cast; ring]
    exact sampleLinear_texelCenter s hs ((i : ℤ) + 1)
  have hsm : smoothValue s ((s.length : ℚ)) ((i : ℚ)) =
      (texelFetch s ((i : ℤ) - 1) + 2 * texelFetch s ((i : ℤ)) +
        texelFetch s ((i : ℤ) + 1)) / 4 := by
    have h := smoothValue_int s hs (i : ℤ)
    rw [show (((i : ℤ) : ℚ)) = ((i : ℚ)) by push_cast; ring] at h
    rw [h]
    ring
  have hclamp : glslClamp ((i : ℚ)) 1 ((s.length : ℚ) - 1) = ((i : ℚ)) := by
    unfold glslClamp
    have hi1 : (1 : ℚ) ≤ (i : ℚ) := by exact_mod_cast h1
    have hi2 : (i : ℚ) ≤ (s.length : ℚ) - 1 := by
      have h2q : (i : ℚ) + 2 ≤ (s.length : ℚ) := by exact_mod_cast h2
      linarith
    rw [max_eq_left hi1, min_eq_left hi2]
  refine ⟨hL, hC, hR, hsm, ?_⟩
  unfold sampleSpectrum noiseGate
  rw [hclamp, hsm]

/-- Claim C4 witness: the amended statement evaluated at texels
`[1/4, 1/4, 3/4, 1/4]`, B = 4, bin index 1. -/
theorem c4_witness_concrete :
    sampleSpectrum ([1/4, 1/4, 3/4, 1/4] : List ℚ) 4 (((1 : ℕ) : ℚ)) =
      max ((texelFetch ([1/4, 1/4, 3/4, 1/4] : List ℚ) (((1 : ℕ) : ℤ) - 1) +
        2 * texelFetch ([1/4, 1/4, 3/4, 1/4] : List ℚ) (((1 : ℕ) : ℤ)) +
        texelFetch ([1/4, 1/4, 3/4, 1/4] : List ℚ) (((1 : ℕ) : ℤ) + 1)) / 4 - 0.01) 0 :=
  (c4_amended_texel_center_average ([1/4, 1/4, 3/4, 1/4] : List ℚ) 4 (by simp) 1
    (le_refl 1) (by simp)).2.2.2.2

/-- Claim C10: at the maximal bin coordinate `B - 1` the right-neighbor
texture coordinate `(B - 1 + 1 + 0.5)/B = (B + 0.5)/B` lies past the
texture's edge (it exceeds 1), CLAMP_TO_EDGE makes that read re-sample the
last texel `s[B-1]`, and so the smoothed value before the noise gate is
`(s[B-2] + 3·s[B-1]) / 4` rather than a 1-2-1 average of three distinct
bins. -/
theorem c10_edge_clamp_maximal_bin (s : List ℚ) (B : ℚ)
    (hB : B = (s.length : ℚ)) (h2 : 2 ≤ s.length) :
    1 < (B - 1 + 1 + 0.5) / B ∧
    sampleLinear s ((B - 1 + 1 + 0.5) / B) = s.getD (s.length - 1) 0 ∧
    smoothValue s B (B - 1) =
      (s.getD (s.length - 2) 0 + 3 * s.getD (s.length - 1) 0) / 4 := by
  subst hB
  have hs : s ≠ [] := by
    rintro rfl
    simp only [List.length_nil] at h2
    omega
  have hN : (0 : ℚ) < (s.length : ℚ) := by exact_mod_cast (by omega : 0 < s.length)
  have hfetchN : texelFetch s ((s.length : ℤ)) = s.getD (s.length - 1) 0 := by
    unfold texelFetch
    congr 1
    omega
  have hf2 : texelFetch s ((s.length : ℤ) - 1 - 1) = s.getD (s.length - 2) 0 := by
    rw [texelFetch_getD s _ (by omega) (by omega)]
    congr 1
    omega
  have hf1 : texelFetch s ((s.length : ℤ) - 1) = s.getD (s.length - 1) 0 := by
    rw [texelFetch_getD s _ (by omega) (by omega)]
    congr 1
    omega
  have hf0 : texelFetch s ((s.length : ℤ) - 1 + 1) = s.getD (s.length - 1) 0 := by
    rw [show (s.length : ℤ) - 1 + 1 = (s.length : ℤ) by ring]
    exact hfetchN
  refine ⟨?_, ?_, ?_⟩
  · rw [show ((s.length : ℚ) - 1 + 1 + 0.5) / (s.length : ℚ) =
        1 + 1 / (2 * (s.length : ℚ)) by field_simp; ring]
    have hpos : 0 < 1 / (2 * (s.length : ℚ)) := by positivity
    linarith
  · rw [show ((s.length : ℚ) - 1 + 1 + 0.5) / (s.length : ℚ) =
        (((s.length : ℤ) : ℚ) + 1 / 2) / (s.length : ℚ) by push_cast; ring,
      sampleLinear_texelCenter s hs ((s.length : ℤ)), hfetchN]
  · have hsm := smoothValue_int s hs ((s.length : ℤ) - 1)
    rw [show ((((s.length : ℤ) - 1 : ℤ) : ℚ)) = (s.length : ℚ) - 1 by push_cast; ring]
      at hsm
    rw [hsm, hf2, hf1, hf0]
    ring

/-- Claim C10 witness: the statement evaluated at the two-texel texture
`[2/5, 4/5]`, B = 2. -/
theorem c10_witness_concrete :
    1 < ((2 : ℚ) - 1 + 1 + 0.5) / 2 ∧
    sampleLinear ([2/5, 4/5] : List ℚ) (((2 : ℚ) - 1 + 1 + 0.5) / 2) =
      ([2/5, 4/5] : List ℚ).getD 1 0 ∧
    smoothValue ([2/5, 4/5] : List ℚ) 2 ((2 : ℚ) - 1) =
      (([2/5, 4/5] : List ℚ).getD 0 0 + 3 * ([2/5, 4/5] : List ℚ).getD 1 0) / 4 :=
  c10_edge_clamp_maximal_bin ([2/5, 4/5] : List ℚ) 2 (by simp) (by simp)

section SmoothstepLemmas

variable {α : Type} [LinearOrderedField α]

lemma glslSmoothstep_nonneg (e0 e1 x : α) : 0 ≤ glslSmoothstep e0 e1 x := by
  simp only [glslSmoothstep, glslClamp]
  set t := min (max ((x - e0) / (e1 - e0)) 0) 1 with ht
  have h0 : 0 ≤ t := le_min (le_max_right _ _) zero_le_one
  have h1 : t ≤ 1 := min_le_right _ _
  nlinarith

lemma glslSmoothstep_le_one (e0 e1 x : α) : glslSmoothstep e0 e1 x ≤ 1 := by
  simp only [glslSmoothstep, glslClamp]
  set t := min (max ((x - e0) / (e1 - e0)) 0) 1 with ht
  have h0 : 0 ≤ t := le_min (le_max_right _ _) zero_le_one
  have h1 : t ≤ 1 := min_le_right _ _
  nlinarith [sq_nonneg (1 - t)]

lemma glslSmoothstep_eq_one_iff (e0 e1 x : α) (h : e1 < e0) :
    glslSmoothstep e0 e1 x = 1 ↔ x ≤ e1 := by
  simp only [glslSmoothstep, glslClamp]
  have hd : e1 - e0 < 0 := by linarith
  constructor
  · intro hone
    set t := min (max ((x - e0) / (e1 - e0)) 0) 1 with ht
    have h0 : 0 ≤ t := le_min (le_max_right _ _) zero_le_one
    have h1 : t ≤ 1 := min_le_right _ _
    have key : (1 - t) ^ 2 * (2 * t + 1) = 0 := by linear_combination -hone
    have hsq : (1 - t) ^ 2 = 0 := by
      rcases mul_eq_zero.mp key with hk | hk
      · exact hk
      · linarith
    have ht1 : t = 1 := by
      have := pow_eq_zero_iff (n := 2) (by norm_num) |>.mp hsq
      linarith
    have hmax : 1 ≤ max ((x - e0) / (e1 - e0)) 0 := ht1 ▸ min_le_left _ _
    have hu1 : (1 : α) ≤ (x - e0) / (e1 - e0) := by
      rcases le_max_iff.mp hmax with hu | hu
      · exact hu
      · exact absurd hu (by norm_num)
    have hmul : ((x - e0) / (e1 - e0)) * (e1 - e0) = x - e0 :=
      div_mul_cancel₀ _ (ne_of_lt hd)
    have hflip : ((x - e0) / (e1 - e0)) * (e1 - e0) ≤ 1 * (e1 - e0) :=
      mul_le_mul_of_nonpos_right hu1 (le_of_lt hd)
    linarith
  · intro hx
    have hu1 : (1 : α) ≤ (x - e0) / (e1 - e0) := by
      rw [le_div_iff_of_neg hd]
      linarith
    rw [max_eq_left (le_trans zero_le_one hu1), min_eq_right hu1]
    ring

end SmoothstepLemmas

lemma glslFract_eq_fract {α : Type} [LinearOrderedField α] [FloorRing α] (x : α) :
    glslFract x = Int.fract x := rfl

lemma ringLine_le_one (r : ℚ) : ringLine r 5 ≤ 1 := by
  simpa only [ringLine] using
    glslSmoothstep_le_one (0.02 : ℚ) 0 (min (glslFract (r * 5)) (1 - glslFract (r * 5)))

lemma ringLine_eq_one_iff (r : ℚ) : ringLine r 5 = 1 ↔ glslFract (r * 5) = 0 := by
  simp only [ringLine]
  rw [glslSmoothstep_eq_one_iff (0.02 : ℚ) 0 _ (by norm_num)]
  have hf0 : 0 ≤ glslFract (r * 5) := by rw [glslFract_eq_fract]; exact Int.fract_nonneg _
  have hf1 : glslFract (r * 5) < 1 := by rw [glslFract_eq_fract]; exact Int.fract_lt_one _
  constructor
  · intro h
    rcases min_le_iff.mp h with hle | hle
    · exact le_antisymm hle hf0
    · linarith
  · intro h
    rw [h]
    norm_num

/-- Claim C8: as the radius sweeps the five pattern periods of `[0, 1)`
(`t = fract(radius·5)` completes exactly 5 cycles), the un-faded ring
function `ring = smoothstep(0.02, 0, min(t, 1-t))` attains its maximum
value 1 at exactly 5 radii — 0, 1/5, 2/5, 3/5, 4/5 — and never exceeds 1
anywhere, so these are exactly the 5 ring maxima before the radius fade is
applied. -/
theorem c8_five_ring_maxima :
    {r : ℚ | 0 ≤ r ∧ r < 1 ∧ ringLine r 5 = 1} =
      ({0, 1/5, 2/5, 3/5, 4/5} : Set ℚ) ∧
    (∀ r : ℚ, ringLine r 5 ≤ 1) ∧
    ({0, 1/5, 2/5, 3/5, 4/5} : Finset ℚ).card = 5 := by
  refine ⟨?_, fun r => ringLine_le_one r, by norm_num⟩
  ext r
  simp only [Set.mem_setOf_eq, Set.mem_insert_iff, Set.mem_singleton_iff]
  constructor
  · rintro ⟨h0, h1, hring⟩
    have hf : glslFract (r * 5) = 0 := (ringLine_eq_one_iff r).mp hring
    rw [glslFract_eq_fract] at hf
    have hfeq : r * 5 = ((⌊r * 5⌋ : ℤ) : ℚ) := by
      have := Int.fract_add_floor (r * 5)
      rw [hf] at this
      linarith
    set z := ⌊r * 5⌋ with hz
    have hz0 : 0 ≤ z := by
      have hq : (0 : ℚ) ≤ ((z : ℤ) : ℚ) := by rw [← hfeq]; nlinarith
      exact_mod_cast hq
    have hz5 : z < 5 := by
      have hq : ((z : ℤ) : ℚ) < 5 := by rw [← hfeq]; nlinarith
      exact_mod_cast hq
    interval_cases z <;> push_cast at hfeq
    · exact Or.inl (by linarith)
    · exact Or.inr (Or.inl (by linarith))
    · exact Or.inr (Or.inr (Or.inl (by linarith)))
    · exact Or.inr (Or.inr (Or.inr (Or.inl (by linarith))))
    · exact Or.inr (Or.inr (Or.inr (Or.inr (by linarith))))
  · intro h
    rcases h with rfl | rfl | rfl | rfl | rfl <;>
      refine ⟨by norm_num, by norm_num, (ringLine_eq_one_iff _).mpr ?_⟩ <;>
      rw [glslFract_eq_fract] <;> norm_num [Int.fract]

lemma exp01_zero (k : ℝ) : exp01 0 k = 0 := by
  simp [exp01, Real.exp_zero]

lemma exp_sub_one_pos (k : ℝ) (hk : 0 < k) : 0 < Real.exp k - 1 := by
  have h := Real.add_one_lt_exp (ne_of_gt hk)
  linarith

lemma exp01_one (k : ℝ) (hk : 0 < k) : exp01 1 k = 1 := by
  simp only [exp01, one_mul]
  exact div_self (ne_of_gt (exp_sub_one_pos k hk))

/-- Claim C6: the exponential angular remap `exp01` fixes both endpoints
(`exp01 0 k = 0`, `exp01 1 k = 1`) and is strictly increasing on `[0, 1]`
for every steepness `k > 0`. -/
theorem c6_exp01_boundary_and_monotone (k : ℝ) (hk : 0 < k) :
    exp01 0 k = 0 ∧ exp01 1 k = 1 ∧
    StrictMonoOn (fun f01 => exp01 f01 k) (Set.Icc 0 1) := by
  have hden : 0 < Real.exp k - 1 := exp_sub_one_pos k hk
  refine ⟨exp01_zero k, exp01_one k hk, ?_⟩
  intro x _ y _ hxy
  simp only [exp01]
  have hexp : Real.exp (x * k) < Real.exp (y * k) :=
    Real.exp_lt_exp.mpr (mul_lt_mul_of_pos_right hxy hk)
  exact div_lt_div_of_pos_right (by linarith) hden

/-- Claim C6 witness: the boundary and monotonicity facts at the shader's
steepness constant `k = 3`. -/
theorem c6_witness_k3 :
    exp01 0 3 = 0 ∧ exp01 1 3 = 1 ∧
    StrictMonoOn (fun f01 => exp01 f01 3) (Set.Icc 0 1) :=
  c6_exp01_boundary_and_monotone 3 (by norm_num)

/-- Claim C7: whenever the smoothed (1-2-1 averaged) amplitude is at most
0.01, the noise gate returns exactly 0; consequently the tilted amplitude
is 0, the gain `pow(amp, 1.5)` is 0, and the glow color contributes
exactly `(0, 0, 0)`.  The last conjunct states the same fact through
`sampleSpectrum`: a pre-gate smoothed value at most 0.01 makes it return
exactly 0. -/
theorem c7_noise_gate_yields_zero_glow (x m : ℝ) (hx : x ≤ 0.01) :
    noiseGate x = 0 ∧ gainOf (noiseGate x * m) = 0 ∧
    glowColor (gainOf (noiseGate x * m)) = (0, 0, 0) ∧
    ∀ (s : List ℝ) (uBins bin : ℝ),
      smoothValue s uBins (glslClamp bin 1 (uBins - 1)) ≤ 0.01 →
        sampleSpectrum s uBins bin = 0 := by
  have hgate : ∀ y : ℝ, y ≤ 0.01 → noiseGate y = 0 := by
    intro y hy
    unfold noiseGate
    rw [max_eq_right (by linarith)]
  have h0 : noiseGate x = 0 := hgate x hx
  have hgain : gainOf (noiseGate x * m) = 0 := by
    rw [h0, zero_mul]
    unfold gainOf
    exact Real.zero_rpow (by norm_num)
  refine ⟨h0, hgain, ?_, ?_⟩
  · rw [hgain]
    unfold glowColor
    norm_num
  · intro s uBins bin hsm
    unfold sampleSpectrum
    exact hgate _ hsm

/-- Claim C7 witness: the gate at the concrete smoothed amplitude 0.005
with tilt factor 2. -/
theorem c7_witness_concrete :
    noiseGate (0.005 : ℝ) = 0 ∧ gainOf (noiseGate (0.005 : ℝ) * 2) = 0 ∧
    glowColor (gainOf (noiseGate (0.005 : ℝ) * 2)) = (0, 0, 0) ∧
    ∀ (s : List ℝ) (uBins bin : ℝ),
      smoothValue s uBins (glslClamp bin 1 (uBins - 1)) ≤ 0.01 →
        sampleSpectrum s uBins bin = 0 :=
  c7_noise_gate_yields_zero_glow 0.005 2 (by norm_num)

lemma polarUV_eval_top : polarUV (1, 1) (0.5, 0.6) = (0, 0.2) := by
  unfold polarUV
  norm_num [max_self]

lemma glslAtan_eval_top : glslAtan (0.2 : ℝ) 0 = Real.pi / 2 := by
  unfold glslAtan
  norm_num

lemma angle01Of_eval_top : angle01Of (1, 1) (0.5, 0.6) = 0 := by
  unfold angle01Of
  rw [polarUV_eval_top]
  simp only []
  rw [glslAtan_eval_top,
      show Real.pi / 2 - Real.pi * 0.5 = 0 by ring]
  norm_num

lemma glslClamp_zero_one (hi : ℝ) (hhi : 1 ≤ hi) : glslClamp (0 : ℝ) 1 hi = 1 := by
  unfold glslClamp
  rw [max_eq_right (by norm_num : (0 : ℝ) ≤ 1), min_eq_left hhi]

lemma binCoord_at_zero (B : ℝ) : binCoord B 0 = 0 := by
  rw [binCoord, exp01_zero]
  ring

/-- Claim C5 counterexample: at the pixel straight above center (vUV =
(0.5, 0.6), square aspect) the wrapped angle is 0, so the raw bin
coordinate of line 273 is 0 while its clamped value is 1 — and the
frequency tilt of lines 277-278, which `main` computes from the raw
coordinate, differs from the tilt the claim prescribes at the clamped
value.  The clamp is therefore not used by the tilt step (B = 1024). -/
theorem c5_counterexample_tilt_uses_unclamped_bin :
    angle01Of (1, 1) (0.5, 0.6) = 0 ∧
    binCoord 1024 (angle01Of (1, 1) (0.5, 0.6)) = 0 ∧
    glslClamp (binCoord 1024 (angle01Of (1, 1) (0.5, 0.6))) 1 (1024 - 1) = 1 ∧
    tiltMix 1024 (binCoord 1024 (angle01Of (1, 1) (0.5, 0.6))) ≠
      tiltMix 1024 (glslClamp (binCoord 1024 (angle01Of (1, 1) (0.5, 0.6))) 1 (1024 - 1)) := by
  have ha := angle01Of_eval_top
  have hb0 : binCoord 1024 (angle01Of (1, 1) (0.5, 0.6)) = 0 := by
    rw [ha]
    exact binCoord_at_zero 1024
  have hcl : glslClamp (binCoord 1024 (angle01Of (1, 1) (0.5, 0.6))) 1 (1024 - 1) = 1 := by
    rw [hb0]
    exact glslClamp_zero_one _ (by norm_num)
  refine ⟨ha, hb0, hcl, ?_⟩
  rw [hcl, hb0]
  unfold tiltMix glslMix
  intro heq
  have hlt : (((0 : ℝ) + 1) / 1024) ^ ((0.5 : ℝ)) < (((1 : ℝ) + 1) / 1024) ^ ((0.5 : ℝ)) :=
    Real.rpow_lt_rpow (by norm_num) (by norm_num) (by norm_num)
  nlinarith [hlt]

/-- Claim C5 amended: the clamp of bin to `[1, B-1]` happens inside
`sampleSpectrum` (line 228), so the smoothing-kernel sampling does use the
clamped value — `sampleSpectrum` is invariant under pre-clamping its bin
argument, for `angle01 = 0` the sampled bin is 1 (never 0), and for
`angle01 = 1` the bin resolves to `B - 1` — but the frequency tilt of step
9 receives the raw, unclamped bin coordinate (see the counterexample). -/
theorem c5_amended_clamp_only_in_sampling (B : ℝ) (hB : 2 ≤ B) :
    binCoord B 0 = 0 ∧
    glslClamp (binCoord B 0) 1 (B - 1) = 1 ∧
    binCoord B 1 = B - 1 ∧
    glslClamp (binCoord B 1) 1 (B - 1) = B - 1 ∧
    ∀ (s : List ℝ) (bin : ℝ),
      sampleSpectrum s B bin = sampleSpectrum s B (glslClamp bin 1 (B - 1)) := by
  have hb0 := binCoord_at_zero B
  have hb1 : binCoord B 1 = B - 1 := by
    rw [binCoord, exp01_one 3 (by norm_num)]
    ring
  refine ⟨hb0, by rw [hb0]; exact glslClamp_zero_one _ (by linarith), hb1, ?_, ?_⟩
  · rw [hb1]
    unfold glslClamp
    rw [max_eq_left (by linarith), min_self]
  · intro s bin
    unfold sampleSpectrum
    have hc1 : (1 : ℝ) ≤ min (max bin 1) (B - 1) :=
      le_min (le_max_right _ _) (by linarith)
    have hidem : glslClamp (glslClamp bin 1 (B - 1)) 1 (B - 1) = glslClamp bin 1 (B - 1) := by
      unfold glslClamp
      rw [max_eq_left hc1, min_eq_left (min_le_right _ _)]
    rw [hidem]

/-- Claim C5 witness: the amended statement at the reference bin count
B = 1024. -/
theorem c5_witness_B1024 :
    binCoord 1024 0 = 0 ∧
    glslClamp (binCoord 1024 0) 1 (1024 - 1) = 1 ∧
    binCoord 1024 1 = 1024 - 1 ∧
    glslClamp (binCoord 1024 1) 1 (1024 - 1) = 1024 - 1 ∧
    ∀ (s : List ℝ) (bin : ℝ),
      sampleSpectrum s 1024 bin = sampleSpectrum s 1024 (glslClamp bin 1 (1024 - 1)) :=
  c5_amended_clamp_only_in_sampling 1024 (by norm_num)

lemma glslSmoothstep_eval {α : Type} [LinearOrderedField α] [FloorRing α]
    (e0 e1 x u : α) (hu : (x - e0) / (e1 - e0) = u) (h0 : 0 ≤ u) (h1 : u ≤ 1) :
    glslSmoothstep e0 e1 x = u * u * (3 - 2 * u) := by
  unfold glslSmoothstep glslClamp
  rw [hu, max_eq_left h0, min_eq_left h1]

lemma texelFetch_zeros4 (i : ℤ) : texelFetch ([0, 0, 0, 0] : List ℝ) i = 0 := by
  unfold texelFetch
  have hall : ∀ n : ℕ, ([0, 0, 0, 0] : List ℝ).getD n 0 = 0 := by
    intro n
    rcases n with _ | _ | _ | _ | n <;> rfl
  exact hall _

lemma sampleSpectrum_zeros4 (uBins bin : ℝ) :
    sampleSpectrum ([0, 0, 0, 0] : List ℝ) uBins bin = 0 := by
  unfold sampleSpectrum noiseGate smoothValue sampleLinear
  simp only [texelFetch_zeros4, mul_zero, zero_mul, add_zero, zero_add]
  rw [max_eq_right (by norm_num)]

lemma glRadius_eval_top : glRadius (1, 1) (0.5, 0.6) = 1 / 5 := by
  unfold glRadius
  rw [polarUV_eval_top]
  rw [show ((0 : ℝ), (0.2 : ℝ)).1 ^ 2 + ((0 : ℝ), (0.2 : ℝ)).2 ^ 2 = (1 / 5) ^ 2 by
    norm_num]
  exact Real.sqrt_sq (by norm_num)

lemma rangeRings_eval_fifth : rangeRings ((1 : ℝ) / 5) 5 = 112 / 125 := by
  have hfr : glslFract ((1 : ℝ) / 5 * 5) = 0 := by
    rw [glslFract_eq_fract, show ((1 : ℝ) / 5 * 5) = 1 by norm_num]
    exact Int.fract_one
  simp only [rangeRings, ringLine, hfr]
  rw [show min (0 : ℝ) (1 - 0) = 0 by norm_num,
      glslSmoothstep_eval (0.02 : ℝ) 0 0 1 (by norm_num) (by norm_num) (by norm_num),
      glslSmoothstep_eval (1 : ℝ) 0 (1 / 5) (4 / 5) (by norm_num) (by norm_num)
        (by norm_num)]
  norm_num

lemma gainOf_zero : gainOf 0 = 0 := by
  unfold gainOf
  exact Real.zero_rpow (by norm_num)

/-- Claim C9 counterexample: at the in-mask pixel vUV = (0.5, 0.6) with
square aspect, zero spectrum and B = 4, the radius is 1/5 (on a ring
line), and the shader's output alpha is 1 + rangeRings(1/5, 5) = 237/125,
not the fully-opaque 1 — the scalar ring term of line 284 is added to the
alpha component too. -/
theorem c9_counterexample_alpha_not_one :
    shadeFragment [0, 0, 0, 0] 4 (1, 1) (0.5, 0.6) =
      some ⟨473 / 500, 122 / 125, 239 / 250, 237 / 125⟩ ∧
    (237 / 125 : ℝ) ≠ 1 := by
  refine ⟨?_, by norm_num⟩
  unfold shadeFragment
  rw [glRadius_eval_top, if_neg (by norm_num : ¬(1 : ℝ) < 1 / 5)]
  simp only []
  rw [angle01Of_eval_top, binCoord_at_zero, sampleSpectrum_zeros4, zero_mul,
      gainOf_zero, rangeRings_eval_fifth]
  unfold glowColor
  norm_num [Vec4.mk.injEq]

/-- Claim C9 amended: every pixel with aspect-corrected radius > 1 is
discarded (no output at all); for every pixel inside the circular mask
(radius ≤ 1) the shader emits a color whose alpha component is
`1 + rangeRings(radius, 5)` — at least 1 (so it saturates to fully opaque
on an 8-bit target), but exactly 1 only where the ring term vanishes,
because line 284 adds the scalar ring pattern to all four components. -/
theorem c9_amended_discard_and_alpha (s : List ℝ) (uBins : ℝ) (uAspect vUV : ℝ × ℝ) :
    (1 < glRadius uAspect vUV → shadeFragment s uBins uAspect vUV = none) ∧
    (glRadius uAspect vUV ≤ 1 →
      ∃ c : Vec4, shadeFragment s uBins uAspect vUV = some c ∧
        c.a = 1 + rangeRings (glRadius uAspect vUV) 5 ∧ 1 ≤ c.a) := by
  constructor
  · intro h
    unfold shadeFragment
    rw [if_pos h]
  · intro h
    have hr : 0 ≤ rangeRings (glRadius uAspect vUV) 5 := by
      unfold rangeRings ringLine
      exact mul_nonneg (glslSmoothstep_nonneg _ _ _) (glslSmoothstep_nonneg _ _ _)
    unfold shadeFragment
    rw [if_neg (not_lt.mpr h)]
    refine ⟨_, rfl, rfl, ?_⟩
    show 1 ≤ 1 + rangeRings (glRadius uAspect vUV) 5
    linarith

/-- Claim C9 witness: the in-mask branch at the concrete pixel
vUV = (0.5, 0.6), square aspect, empty spectrum list, B = 4. -/
theorem c9_witness_inside_mask :
    glRadius (1, 1) (0.5, 0.6) ≤ 1 ∧
    ∃ c : Vec4, shadeFragment [] 4 (1, 1) (0.5, 0.6) = some c ∧
      c.a = 1 + rangeRings (glRadius (1, 1) (0.5, 0.6)) 5 ∧ 1 ≤ c.a := by
  have hrad : glRadius (1, 1) (0.5, 0.6) ≤ 1 := by
    rw [glRadius_eval_top]
    norm_num
  exact ⟨hrad, (c9_amended_discard_and_alpha [] 4 (1, 1) (0.5, 0.6)).2 hrad⟩
